import Mathlib

/-! Verification of the phoneMcp UI element discovery, caching and targeting
engine, a shallow embedding of the Python sources
`src/phone_mcp/adb/ui_hierarchy.py`, `src/phone_mcp/adb/ocr.py` and
`src/phone_mcp/server.py`.

Python strings are modelled as `String` / `List Char` (with the ASCII
behaviour of `str.lower` / `str.strip`), Python ints as `Int` / `Nat`,
floats that are only ever constructed and compared (OCR confidence scores,
`time.time()` timestamps) as `ℚ`, and `None`-able values as `Option`.
External effects (adb subprocess calls, the PaddleOCR engine, the XML
decoder) enter the embedding as explicit inputs: a hierarchy dump is a list
of decoded `<node>` attribute records, an OCR pass is its three result
lists, and a fresh detection is the element list it would produce.
-/

namespace PhoneMcp

/-! ## Python string and integer primitives used by `_parse_bounds` -/

/-- One decimal digit as a character. -/
def digitChar (d : Nat) : Char := Char.ofNat (48 + d)

/-- Numeric value of a decimal digit character. -/
def digitVal (c : Char) : Nat := c.toNat - 48

/-- Decimal digits of a natural number, most significant first (empty for 0);
structural in `fuel` so that it evaluates by kernel reduction.  Any
`fuel > n` gives the digits of `n`. -/
def natDigitsAux : Nat → Nat → List Char
  | 0, _ => []
  | fuel + 1, n => if n = 0 then [] else natDigitsAux fuel (n / 10) ++ [digitChar (n % 10)]

/-- Canonical decimal digit string of a natural number (`str(n)` in Python). -/
def natDigits (n : Nat) : List Char := if n = 0 then ['0'] else natDigitsAux (n + 1) n

/-- Canonical literal form of an integer, as written by Python `str(int)`:
an optional minus sign followed by decimal digits. -/
def intLit (a : Int) : List Char :=
  if a < 0 then '-' :: natDigits a.natAbs else natDigits a.toNat

/-- Parse the tail of a Python integer literal: decimal digits with single
underscores allowed between digits, accumulated into `acc` (the grammar
accepted by `int()` after the optional sign). -/
def digitsCore (acc : Nat) : List Char → Option Nat
  | [] => some acc
  | c :: rest =>
    if c.isDigit then digitsCore (acc * 10 + digitVal c) rest
    else if c = '_' then
      match rest with
      | [] => none
      | c2 :: rest2 => if c2.isDigit then digitsCore (acc * 10 + digitVal c2) rest2 else none
    else none

/-- Parse a nonempty unsigned Python integer numeral. -/
def pyIntDigits : List Char → Option Nat
  | [] => none
  | c :: rest => if c.isDigit then digitsCore (digitVal c) rest else none

/-- Python `str.strip()` with no argument: remove leading and trailing
whitespace. -/
def stripWs (s : List Char) : List Char :=
  ((s.dropWhile Char.isWhitespace).reverse.dropWhile Char.isWhitespace).reverse

/-- Python `int(s)`: optional surrounding whitespace, an optional sign, then
decimal digits with single underscores between digits; `none` models the
`ValueError` caught by `_parse_bounds`. -/
def pyInt (s : List Char) : Option Int :=
  match stripWs s with
  | [] => none
  | c :: rest =>
    if c = '-' then (pyIntDigits rest).map (fun n => -(n : Int))
    else if c = '+' then (pyIntDigits rest).map (fun n => (n : Int))
    else (pyIntDigits (c :: rest)).map (fun n => (n : Int))

/-- Python `s.replace("][", ",")`: left-to-right, non-overlapping. -/
def replaceBrPair : List Char → List Char
  | [] => []
  | [c] => [c]
  | c1 :: c2 :: rest =>
    if c1 = ']' ∧ c2 = '[' then ',' :: replaceBrPair rest
    else c1 :: replaceBrPair (c2 :: rest)

/-- Is `c` one of the bracket characters stripped by `strip("[]")`? -/
def isBracket (c : Char) : Bool := c = '[' || c = ']'

/-- Python `s.strip("[]")`: remove leading and trailing `[` / `]` characters. -/
def stripBrackets (s : List Char) : List Char :=
  ((s.dropWhile isBracket).reverse.dropWhile isBracket).reverse

/-- Python `s.split(",")`. -/
def splitComma : List Char → List (List Char)
  | [] => [[]]
  | c :: rest =>
    if c = ',' then [] :: splitComma rest
    else
      match splitComma rest with
      | [] => [[c]]
      | p :: ps => (c :: p) :: ps

/-- `_parse_bounds` from `ui_hierarchy.py`:
`parts = bounds_str.replace("][", ",").strip("[]").split(",")`; if there are
exactly four parts they are converted with `int()`, any `ValueError` (or a
different number of parts) yielding the zero rectangle `(0, 0, 0, 0)`. -/
def _parse_bounds (bounds_str : String) : Int × Int × Int × Int :=
  let parts := splitComma (stripBrackets (replaceBrPair bounds_str.toList))
  match parts with
  | [p0, p1, p2, p3] =>
    match pyInt p0, pyInt p1, pyInt p2, pyInt p3 with
    | some a, some b, some c, some d => (a, b, c, d)
    | _, _, _, _ => (0, 0, 0, 0)
  | _ => (0, 0, 0, 0)

/-- The exact literal form `[a,b][c,d]` of a bounds attribute. -/
def boundsLit (a b c d : Int) : String :=
  String.mk
    ('[' :: (intLit a ++ ',' :: (intLit b ++ ']' :: '[' :: (intLit c ++ ',' :: (intLit d ++ [']'])))))

/-! ## Data model: `UIElement` and decoded XML nodes -/

/-- The `UIElement` dataclass of `ui_hierarchy.py`. -/
structure UIElement where
  index : Nat
  text : String
  content_desc : String
  resource_id : String
  class_name : String
  bounds : Int × Int × Int × Int
  clickable : Bool
  enabled : Bool
  focused : Bool
  selected : Bool
deriving Repr, DecidableEq

/-- `UIElement.center`: Python `//` is floor division, hence `Int.fdiv`. -/
def UIElement.center (e : UIElement) : Int × Int :=
  (Int.fdiv (e.bounds.1 + e.bounds.2.2.1) 2, Int.fdiv (e.bounds.2.1 + e.bounds.2.2.2) 2)

/-- One `<node>` of the uiautomator XML dump, after the attribute lookups of
`parse_ui_elements` with their defaults (`node.get("text", "")`,
`node.get("clickable", "false")`, `node.get("bounds", "[0,0][0,0]")`, ...).
The XML decoding itself is an external library call (`ET.fromstring`); a
document that fails to decode contributes no nodes. -/
structure UINode where
  text : String := ""
  content_desc : String := ""
  resource_id : String := ""
  class_name : String := ""
  clickable : String := "false"
  enabled : String := "true"
  focused : String := "false"
  selected : String := "false"
  bounds : String := "[0,0][0,0]"
deriving Repr, DecidableEq

/-! ## Hierarchy snapshot parser (`parse_ui_elements`, ui_hierarchy.py 86-140) -/

/-- The body of the `for node in root.iter("node")` loop of
`parse_ui_elements`, with the running element `index`. -/
def parseLoop (clickable_only include_all_with_text : Bool) : Nat → List UINode → List UIElement
  | _, [] => []
  | index, node :: rest =>
    let clickable := node.clickable == "true"
    let bounds := _parse_bounds node.bounds
    if bounds.2.2.1 ≤ bounds.1 ∨ bounds.2.2.2 ≤ bounds.2.1 then
      parseLoop clickable_only include_all_with_text index rest
    else
      let has_identifier := !(node.text == "") || !(node.content_desc == "") || !(node.resource_id == "")
      if clickable_only && (!clickable && !(include_all_with_text && has_identifier)) then
        parseLoop clickable_only include_all_with_text index rest
      else if !has_identifier && !clickable then
        parseLoop clickable_only include_all_with_text index rest
      else
        { index := index, text := node.text, content_desc := node.content_desc,
          resource_id := node.resource_id, class_name := node.class_name,
          bounds := bounds, clickable := clickable,
          enabled := node.enabled == "true", focused := node.focused == "true",
          selected := node.selected == "true" }
          :: parseLoop clickable_only include_all_with_text (index + 1) rest

/-- `parse_ui_elements(xml_content, clickable_only, include_all_with_text)`:
the input is the decoded node list in document traversal order. -/
def parse_ui_elements (nodes : List UINode) (clickable_only : Bool := true)
    (include_all_with_text : Bool := true) : List UIElement :=
  parseLoop clickable_only include_all_with_text 0 nodes

/-! ## Optical fallback detector (`ocr_get_ui_elements`, ocr.py 70-151) -/

/-- A `dt_polys` entry: a 4-corner quadrilateral, coordinates already taken
through `int(...)`. -/
abbrev Quad := (Int × Int) × (Int × Int) × (Int × Int) × (Int × Int)

/-- `left = min(xs); top = min(ys); right = max(xs); bottom = max(ys)` over
the four corner points of a polygon. -/
def quadRect (q : Quad) : Int × Int × Int × Int :=
  (min q.1.1 (min q.2.1.1 (min q.2.2.1.1 q.2.2.2.1)),
   min q.1.2 (min q.2.1.2 (min q.2.2.1.2 q.2.2.2.2)),
   max q.1.1 (max q.2.1.1 (max q.2.2.1.1 q.2.2.2.1)),
   max q.1.2 (max q.2.1.2 (max q.2.2.1.2 q.2.2.2.2)))

/-- Python `str.strip()` on a `String`. -/
def pyStripStr (s : String) : String := (stripWs s.toList).asString

/-- The `for i, text in enumerate(rec_texts)` loop of `ocr_get_ui_elements`,
with the enumeration counter `i` and the running element `index`.  The
confidence threshold `0.5` is the exact rational `mkRat 1 2`. -/
def ocrLoop (rec_scores : List ℚ) (dt_polys : List Quad) : Nat → Nat → List String → List UIElement
  | _, _, [] => []
  | i, index, text :: rest =>
    let confidence := rec_scores.getD i 0
    if confidence < mkRat 1 2 then ocrLoop rec_scores dt_polys (i + 1) index rest
    else if text == "" || pyStripStr text == "" then ocrLoop rec_scores dt_polys (i + 1) index rest
    else if dt_polys.length ≤ i then ocrLoop rec_scores dt_polys (i + 1) index rest
    else
      let rect := quadRect (dt_polys.getD i ((0, 0), (0, 0), (0, 0), (0, 0)))
      if rect.2.2.1 ≤ rect.1 ∨ rect.2.2.2 ≤ rect.2.1 then
        ocrLoop rec_scores dt_polys (i + 1) index rest
      else
        { index := index, text := pyStripStr text, content_desc := "",
          resource_id := "", class_name := "ocr_text", bounds := rect,
          clickable := true, enabled := true, focused := false, selected := false }
          :: ocrLoop rec_scores dt_polys (i + 1) (index + 1) rest

/-- `ocr_get_ui_elements`, applied to the recognition result lists
`rec_texts`, `rec_scores`, `dt_polys` of `results[0]` (screenshot capture and
the OCR engine itself are the external inputs producing these lists). -/
def ocr_get_ui_elements (rec_texts : List String) (rec_scores : List ℚ)
    (dt_polys : List Quad) : List UIElement :=
  ocrLoop rec_scores dt_polys 0 0 rec_texts

/-! ## Element matcher (ui_hierarchy.py 153-200) -/

/-- Python `needle in hay` substring containment for strings. -/
def strIn (needle : List Char) : List Char → Bool
  | [] => needle.isEmpty
  | c :: rest => needle.isPrefixOf (c :: rest) || strIn needle rest

/-- The `for element in elements` loop of `find_element_by_text`, with the
query already lowered (Python lowers it once before the loop). -/
def findByTextGo (text_lower : List Char) (exact_match : Bool) : List UIElement → Option UIElement
  | [] => none
  | element :: rest =>
    let element_text := element.text.toList.map Char.toLower
    let element_desc := element.content_desc.toList.map Char.toLower
    if exact_match then
      if element_text == text_lower || element_desc == text_lower then some element
      else findByTextGo text_lower exact_match rest
    else
      if strIn text_lower element_text || strIn text_lower element_desc then some element
      else findByTextGo text_lower exact_match rest

/-- `find_element_by_text(elements, text, exact_match)`; `str.lower` is
modelled on its ASCII behaviour (`Char.toLower`). -/
def find_element_by_text (elements : List UIElement) (text : String)
    (exact_match : Bool := false) : Option UIElement :=
  findByTextGo (text.toList.map Char.toLower) exact_match elements

/-- `find_element_by_resource_id(elements, resource_id, partial_match)`. -/
def find_element_by_resource_id (elements : List UIElement) (resource_id : String)
    (partial_match : Bool := true) : Option UIElement :=
  match elements with
  | [] => none
  | element :: rest =>
    if partial_match then
      if strIn resource_id.toList element.resource_id.toList then some element
      else find_element_by_resource_id rest resource_id partial_match
    else
      if element.resource_id == resource_id then some element
      else find_element_by_resource_id rest resource_id partial_match

/-- `find_element_by_index(elements, index)`. -/
def find_element_by_index (elements : List UIElement) (index : Nat) : Option UIElement :=
  match elements with
  | [] => none
  | element :: rest =>
    if element.index = index then some element else find_element_by_index rest index

/-! ## Element cache and `tap_element` (server.py 47, 545-635) -/

/-- The module-global `_ui_elements_cache` dict of server.py. -/
structure UICache where
  elements : List UIElement
  timestamp : ℚ
  mode : String
deriving DecidableEq

/-- The initial (and post-tap) cache value
`{"elements": [], "timestamp": 0, "mode": "xml"}`. -/
def emptyUICache : UICache := ⟨[], 0, "xml"⟩

/-- The cache read shared by `tap_element` (server.py 564-574) and the
annotated branch of `get_screenshot` (server.py 156-168, where `refresh` is
absent, i.e. `false`): refresh when forced, when
`time.time() - timestamp > 30`, or when the stored element list is empty.
Returns the elements served, the updated cache, and whether a fresh
detection was performed. -/
def cache_get (cache : UICache) (now : ℚ) (refresh : Bool)
    (fresh : List UIElement) : List UIElement × UICache × Bool :=
  let cache_age := now - cache.timestamp
  if refresh = true ∨ cache_age > 30 ∨ cache.elements.isEmpty = true then
    (fresh, ⟨fresh, now, cache.mode⟩, true)
  else
    (cache.elements, cache, false)

/-- The `if index is not None / elif text / elif resource_id` search chain of
`tap_element` (server.py 579-587, repeated at 603-608). -/
def searchOnce (index? : Option Nat) (text? : Option String) (rid? : Option String)
    (elements : List UIElement) : Option UIElement :=
  match index? with
  | some i => find_element_by_index elements i
  | none =>
    match text? with
    | some t => find_element_by_text elements t false
    | none =>
      match rid? with
      | some r => find_element_by_resource_id elements r true
      | none => none

/-- Result of one `tap_element` call: the usage-error dict for missing keys,
the diagnostic not-found dict with `available_count`, or a tap at the matched
element's center.  All three are returned values, never raised exceptions. -/
inductive TapOutcome where
  | invalid_query : TapOutcome
  | not_found (available_count : Nat) : TapOutcome
  | tapped (element : UIElement) (x y : Int) : TapOutcome
deriving Repr, DecidableEq

/-- One `tap_element` call: its outcome, the cache it leaves behind, and how
many fresh detections (`adb_get_ui_elements` calls) it performed. -/
structure TapRun where
  outcome : TapOutcome
  cache : UICache
  detections : Nat
deriving DecidableEq

/-- `tap_element(index, text, resource_id, device_id, delay, refresh)` from
server.py 545-635.  `fresh1` is the element list a detection during the
initial cache read would produce, `fresh2` the one produced by the
retry-after-miss detection (the screen may change between them); `now` is
`time.time()`.  The tap itself (`adb_tap`) is fire-and-forget; after it the
global cache is reset to the empty cache. -/
def tap_element (cache : UICache) (now : ℚ) (index? : Option Nat)
    (text? : Option String) (rid? : Option String) (refresh : Bool)
    (fresh1 fresh2 : List UIElement) : TapRun :=
  let r1 := cache_get cache now refresh fresh1
  let elements := r1.1
  let cache1 := r1.2.1
  let d1 : Nat := if r1.2.2 then 1 else 0
  match index?, text?, rid? with
  | none, none, none => ⟨TapOutcome.invalid_query, cache1, d1⟩
  | _, _, _ =>
    match searchOnce index? text? rid? elements with
    | some element =>
      ⟨TapOutcome.tapped element element.center.1 element.center.2, emptyUICache, d1⟩
    | none =>
      if refresh = false then
        match searchOnce index? text? rid? fresh2 with
        | some element =>
          ⟨TapOutcome.tapped element element.center.1 element.center.2, emptyUICache, d1 + 1⟩
        | none => ⟨TapOutcome.not_found fresh2.length, ⟨fresh2, now, cache.mode⟩, d1 + 1⟩
      else ⟨TapOutcome.not_found elements.length, cache1, d1⟩

/-! ## Mode selection policy -/

/-- Modelled from the spec: the mode-dispatching element discovery.
server.py calls `adb_get_ui_elements(device_id, clickable_only, mode=mode)`
with `mode` one of `"xml"`, `"ocr"`, `"auto"` (documented in the
`get_ui_elements` tool, server.py 480-542), but the dispatcher accepting the
`mode` keyword is not among the provided sources — the `get_ui_elements` of
`ui_hierarchy.py` (143-150) is only the hierarchy pipeline.  Following spec
§4.3: `tree`/`"xml"` runs only the hierarchy pipeline, `optical`/`"ocr"`
runs only the OCR pipeline, and `auto` runs the hierarchy pipeline first,
falling back to the OCR result when that fails or yields fewer elements than
a usefulness `threshold` (left configurable, as the spec directs).  Each
pipeline attempt is an `Except`: `error` models a capture/parsing failure
propagated to the caller. -/
def get_ui_elements_dispatch (mode : String) (threshold : Nat)
    (tree_attempt : Except String (List UIElement))
    (ocr_attempt : Except String (List UIElement)) : Except String (List UIElement) :=
  if mode == "ocr" then ocr_attempt
  else if mode == "auto" then
    match tree_attempt with
    | Except.error _ => ocr_attempt
    | Except.ok es => if es.length < threshold then ocr_attempt else Except.ok es
  else tree_attempt

/-! ## Sample elements used by witnesses and counterexamples -/

/-- A concrete element, as the matcher claim's example `{index:0,text:"Cancel"}`. -/
def sampleCancel : UIElement :=
  { index := 0, text := "Cancel", content_desc := "", resource_id := "", class_name := "",
    bounds := (0, 0, 100, 50), clickable := true, enabled := true, focused := false,
    selected := false }

/-- A concrete element, as the matcher claim's example `{index:1,text:"OK"}`. -/
def sampleOK : UIElement :=
  { index := 1, text := "OK", content_desc := "", resource_id := "", class_name := "",
    bounds := (0, 50, 100, 100), clickable := true, enabled := true, focused := false,
    selected := false }

/-- A concrete clickable node, as in the spec's end-to-end scenario. -/
def sampleSubmitNode : UINode :=
  { text := "Submit", clickable := "true", bounds := "[10,20][110,70]" }

/-- The element parsed from a concrete `Submit` node with bounds
`[10,20][110,70]`. -/
def sampleSubmitParsed : UIElement :=
  { index := 0, text := "Submit", content_desc := "", resource_id := "", class_name := "",
    bounds := (10, 20, 110, 70), clickable := true, enabled := true, focused := false,
    selected := false }

/-- The element the optical detector produces for a confident `OK` region
with corners `(0,0) (10,0) (10,10) (0,10)`. -/
def sampleOptical : UIElement :=
  { index := 0, text := "OK", content_desc := "", resource_id := "", class_name := "ocr_text",
    bounds := (0, 0, 10, 10), clickable := true, enabled := true, focused := false,
    selected := false }

/-! ## C1: the hierarchy parser's inclusion decision table -/

/-- `has_identifier = bool(text or content_desc or resource_id)`, as a
proposition. -/
def hasIdentifier (node : UINode) : Prop :=
  node.text ≠ "" ∨ node.content_desc ≠ "" ∨ node.resource_id ≠ ""

instance (node : UINode) : Decidable (hasIdentifier node) := by
  unfold hasIdentifier; infer_instance

/-- The spec's inclusion decision table for one node. -/
def specIncluded (clickable_only include_all_with_text : Bool) (node : UINode) : Prop :=
  if clickable_only then
    node.clickable = "true" ∨ (include_all_with_text = true ∧ hasIdentifier node)
  else
    hasIdentifier node ∨ node.clickable = "true"

instance (co iawt : Bool) (node : UINode) : Decidable (specIncluded co iawt node) := by
  unfold specIncluded; infer_instance

lemma hasIdentifier_bool (node : UINode) :
    (!(node.text == "") || !(node.content_desc == "") || !(node.resource_id == "")) = true ↔
      hasIdentifier node := by
  simp [hasIdentifier, or_assoc]

/-- C1.  For a node with non-degenerate parsed bounds, `parse_ui_elements`
includes it iff: in `clickable_only` mode, it is clickable or
(`include_all_with_text` and it has an identifier); otherwise, it has an
identifier or is clickable.  A node with no text, no content-desc, no
resource-id and `clickable != "true"` is never included in any mode. -/
theorem c1_inclusion_decision_table (node : UINode) (co iawt : Bool) :
    ((_parse_bounds node.bounds).1 < (_parse_bounds node.bounds).2.2.1 ∧
      (_parse_bounds node.bounds).2.1 < (_parse_bounds node.bounds).2.2.2 →
      (parse_ui_elements [node] co iawt ≠ [] ↔ specIncluded co iawt node)) ∧
    (¬ hasIdentifier node ∧ node.clickable ≠ "true" →
      parse_ui_elements [node] co iawt = []) := by
  have hguard :
      ((_parse_bounds node.bounds).1 < (_parse_bounds node.bounds).2.2.1 ∧
        (_parse_bounds node.bounds).2.1 < (_parse_bounds node.bounds).2.2.2) ↔
      ¬ ((_parse_bounds node.bounds).2.2.1 ≤ (_parse_bounds node.bounds).1 ∨
        (_parse_bounds node.bounds).2.2.2 ≤ (_parse_bounds node.bounds).2.1) := by
    push_neg
    constructor <;> exact fun h => ⟨h.1, h.2⟩
  constructor
  · intro hnd
    rw [hguard] at hnd
    by_cases hhi : hasIdentifier node <;> by_cases hcl : node.clickable = "true" <;>
      cases co <;> cases iawt <;>
      simp_all [parse_ui_elements, parseLoop, specIncluded, hasIdentifier, or_assoc] <;>
      tauto
  · intro ⟨hhi, hcl⟩
    by_cases hdeg :
        ((_parse_bounds node.bounds).2.2.1 ≤ (_parse_bounds node.bounds).1 ∨
          (_parse_bounds node.bounds).2.2.2 ≤ (_parse_bounds node.bounds).2.1) <;>
      cases co <;> cases iawt <;>
      simp_all [parse_ui_elements, parseLoop, hasIdentifier, or_assoc]

/-- Witness for C1 at a concrete clickable node with non-degenerate bounds. -/
theorem c1_inclusion_decision_table_witness :
    parse_ui_elements [sampleSubmitNode] true true ≠ [] ∧
    ((_parse_bounds sampleSubmitNode.bounds).1 < (_parse_bounds sampleSubmitNode.bounds).2.2.1 ∧
      (_parse_bounds sampleSubmitNode.bounds).2.1 < (_parse_bounds sampleSubmitNode.bounds).2.2.2) := by
  refine ⟨?_, by decide⟩
  exact ((c1_inclusion_decision_table sampleSubmitNode true true).1 (by decide)).mpr (by decide)

/-! ## C5: no degenerate rectangle ever appears in a result list -/

lemma parseLoop_bounds (co iawt : Bool) :
    ∀ (nodes : List UINode) (ix : Nat) (e : UIElement), e ∈ parseLoop co iawt ix nodes →
      e.bounds.1 < e.bounds.2.2.1 ∧ e.bounds.2.1 < e.bounds.2.2.2 := by
  intro nodes
  induction nodes with
  | nil => intro ix e h; simp [parseLoop] at h
  | cons node rest ih =>
    intro ix e h
    simp only [parseLoop] at h
    split at h
    · exact ih ix e h
    · next hnd =>
      push_neg at hnd
      split at h
      · exact ih ix e h
      · split at h
        · exact ih ix e h
        · rcases List.mem_cons.mp h with he | he
          · subst he; exact ⟨hnd.1, hnd.2⟩
          · exact ih (ix + 1) e he

lemma ocrLoop_bounds (rec_scores : List ℚ) (dt_polys : List Quad) :
    ∀ (texts : List String) (i index : Nat) (e : UIElement),
      e ∈ ocrLoop rec_scores dt_polys i index texts →
      e.bounds.1 < e.bounds.2.2.1 ∧ e.bounds.2.1 < e.bounds.2.2.2 := by
  intro texts
  induction texts with
  | nil => intro i index e h; simp [ocrLoop] at h
  | cons text rest ih =>
    intro i index e h
    simp only [ocrLoop] at h
    split at h
    · exact ih (i + 1) index e h
    · split at h
      · exact ih (i + 1) index e h
      · split at h
        · exact ih (i + 1) index e h
        · split at h
          · exact ih (i + 1) index e h
          · next hnd =>
            push_neg at hnd
            rcases List.mem_cons.mp h with he | he
            · subst he; exact ⟨hnd.1, hnd.2⟩
            · exact ih (i + 1) (index + 1) e he

/-- C5.  Every element in a result list of either detection pipeline has
`right > left` and `bottom > top`; no degenerate rectangle is ever stored. -/
theorem c5_no_degenerate_bounds :
    (∀ (nodes : List UINode) (co iawt : Bool) (e : UIElement),
      e ∈ parse_ui_elements nodes co iawt →
      e.bounds.1 < e.bounds.2.2.1 ∧ e.bounds.2.1 < e.bounds.2.2.2) ∧
    (∀ (rec_texts : List String) (rec_scores : List ℚ) (dt_polys : List Quad) (e : UIElement),
      e ∈ ocr_get_ui_elements rec_texts rec_scores dt_polys →
      e.bounds.1 < e.bounds.2.2.1 ∧ e.bounds.2.1 < e.bounds.2.2.2) := by
  constructor
  · intro nodes co iawt e h
    exact parseLoop_bounds co iawt nodes 0 e h
  · intro rec_texts rec_scores dt_polys e h
    exact ocrLoop_bounds rec_scores dt_polys rec_texts 0 0 e h

/-- Witness for C5: a concrete element of each pipeline. -/
theorem c5_no_degenerate_bounds_witness :
    (sampleSubmitParsed ∈ parse_ui_elements [sampleSubmitNode] true true ∧
      sampleSubmitParsed.bounds.1 < sampleSubmitParsed.bounds.2.2.1 ∧
      sampleSubmitParsed.bounds.2.1 < sampleSubmitParsed.bounds.2.2.2) ∧
    (sampleOptical ∈ ocr_get_ui_elements ["OK"] [mkRat 9 10] [((0, 0), (10, 0), (10, 10), (0, 10))] ∧
      sampleOptical.bounds.1 < sampleOptical.bounds.2.2.1 ∧
      sampleOptical.bounds.2.1 < sampleOptical.bounds.2.2.2) :=
  ⟨⟨by decide,
    c5_no_degenerate_bounds.1 [sampleSubmitNode] true true sampleSubmitParsed (by decide)⟩,
   ⟨by decide,
    c5_no_degenerate_bounds.2 ["OK"] [mkRat 9 10] [((0, 0), (10, 0), (10, 10), (0, 10))]
      sampleOptical (by decide)⟩⟩

/-! ## C7: match-by-text semantics -/

/-- The spec's per-element text match: case-insensitive equality against
`text` or `content_desc` when exact, substring containment otherwise. -/
def matchesText (text : String) (exact_match : Bool) (element : UIElement) : Bool :=
  let text_lower := text.toList.map Char.toLower
  let element_text := element.text.toList.map Char.toLower
  let element_desc := element.content_desc.toList.map Char.toLower
  if exact_match then element_text == text_lower || element_desc == text_lower
  else strIn text_lower element_text || strIn text_lower element_desc

lemma find_by_text_eq_find (text : String) (exact_match : Bool)
    (elements : List UIElement) :
    find_element_by_text elements text exact_match =
      elements.find? (matchesText text exact_match) := by
  induction elements with
  | nil => rfl
  | cons e rest ih =>
    rw [List.find?_cons]
    by_cases hm : matchesText text exact_match e = true
    · rw [hm]
      cases exact_match <;>
        simp [matchesText] at hm <;>
        simp [find_element_by_text, findByTextGo, hm]
    · rw [Bool.eq_false_iff.mpr hm]
      rw [find_element_by_text] at ih
      cases exact_match <;>
        simp [matchesText] at hm <;>
        simp [find_element_by_text, findByTextGo, hm, ih] <;>
        exact ih

/-- C7.  `find_element_by_text` returns the first element of the list (the
index order of a detection snapshot) satisfying the case-insensitive match —
equality of `text` or `content_desc` when `exact_match`, substring
containment otherwise — and `none` when no element matches; on
`[{index:0,text:"Cancel"},{index:1,text:"OK"}]` the query `"O"` with
`exact_match` finds nothing and `"ok"` without it finds index 1. -/
theorem c7_match_by_text :
    (∀ (elements : List UIElement) (text : String) (exact_match : Bool),
      find_element_by_text elements text exact_match =
        elements.find? (matchesText text exact_match)) ∧
    find_element_by_text [sampleCancel, sampleOK] "O" true = none ∧
    find_element_by_text [sampleCancel, sampleOK] "ok" false = some sampleOK := by
  refine ⟨fun elements text exact_match => find_by_text_eq_find text exact_match elements,
    by decide, by decide⟩

/-! ## C10: the empty text query matches the first element -/

lemma strIn_nil_left (hay : List Char) : strIn [] hay = true := by
  cases hay <;> simp [strIn, List.isPrefixOf]

lemma find_by_text_empty (elements : List UIElement) :
    find_element_by_text elements ("") false = elements.head? := by
  cases elements with
  | nil => rfl
  | cons e rest =>
    have hq : ("" : String).toList.map Char.toLower = [] := rfl
    rw [find_element_by_text, hq, findByTextGo]
    simp [strIn_nil_left]

/-- C10.  Matching by text with the empty string and `exact_match = false`
returns the first element of the list (the empty string is a substring of
everything), and a `tap_element` request with `text=""` against a cache
serving a non-empty element list taps that first element — index 0 of a
snapshot — instead of reporting a usage error or not-found. -/
theorem c10_empty_text_matches_first :
    (∀ elements : List UIElement,
      find_element_by_text elements ("") false = elements.head?) ∧
    (∀ (cache : UICache) (now : ℚ) (fresh1 fresh2 : List UIElement) (e : UIElement)
      (rest : List UIElement) (c1 : UICache) (det1 : Bool),
      cache_get cache now false fresh1 = (e :: rest, c1, det1) →
      tap_element cache now none (some ("")) none false fresh1 fresh2 =
        ⟨TapOutcome.tapped e e.center.1 e.center.2, emptyUICache,
          if det1 then 1 else 0⟩) := by
  refine ⟨find_by_text_empty, ?_⟩
  intro cache now fresh1 fresh2 e rest c1 det1 hget
  rw [tap_element, hget]
  simp only [searchOnce, find_by_text_empty, List.head?_cons]
  exact fun _ h _ => Option.noConfusion h

/-- Helper: a fresh non-empty cache read at age 5 serves the cached list. -/
lemma cache_get_sample_fresh :
    cache_get ⟨[sampleCancel], 0, "xml"⟩ 5 false [sampleOK] =
      ([sampleCancel], ⟨[sampleCancel], 0, "xml"⟩, false) := by
  norm_num [cache_get]

/-- Witness for C10: a concrete `text=""` tap resolves to the first element. -/
theorem c10_empty_text_matches_first_witness :
    tap_element ⟨[sampleCancel], 0, "xml"⟩ 5 none (some ("")) none false [sampleOK] [] =
      ⟨TapOutcome.tapped sampleCancel 50 25, emptyUICache, 0⟩ :=
  c10_empty_text_matches_first.2 ⟨[sampleCancel], 0, "xml"⟩ 5 [sampleOK] []
    sampleCancel [] ⟨[sampleCancel], 0, "xml"⟩ false cache_get_sample_fresh

/-! ## C6: the 30-second cache TTL -/

lemma cache_get_hit (cache : UICache) (now : ℚ) (fresh : List UIElement)
    (hage : ¬ now - cache.timestamp > 30) (hne : cache.elements ≠ []) :
    cache_get cache now false fresh = (cache.elements, cache, false) := by
  have hcond : ¬(false = true ∨ now - cache.timestamp > 30 ∨ cache.elements.isEmpty = true) := by
    simp only [not_or]
    refine ⟨by simp, hage, ?_⟩
    simp [List.isEmpty_iff, hne]
  simp only [cache_get, if_neg hcond]

lemma cache_get_stale (cache : UICache) (now : ℚ) (fresh : List UIElement)
    (hage : now - cache.timestamp > 30) :
    cache_get cache now false fresh = (fresh, ⟨fresh, now, cache.mode⟩, true) := by
  simp only [cache_get, if_pos (Or.inr (Or.inl hage))]

lemma cache_get_forced (cache : UICache) (now : ℚ) (fresh : List UIElement) :
    cache_get cache now true fresh = (fresh, ⟨fresh, now, cache.mode⟩, true) := by
  simp [cache_get]

/-- C6 (amended).  For a stored snapshot with a non-empty element list and no
forced refresh, a read at age ≤ 30 seconds returns the stored elements with
no new detection, and a read at age > 30 performs a fresh detection stored
with the new timestamp; a forced refresh always re-detects.  (The code also
re-detects at any age when the stored element list is empty, which is the
counterexample to the claim as stated.) -/
theorem c6_cache_ttl :
    (∀ (cache : UICache) (now : ℚ) (fresh : List UIElement), cache.elements ≠ [] →
      (¬ now - cache.timestamp > 30 →
        cache_get cache now false fresh = (cache.elements, cache, false)) ∧
      (now - cache.timestamp > 30 →
        cache_get cache now false fresh = (fresh, ⟨fresh, now, cache.mode⟩, true))) ∧
    (∀ (cache : UICache) (now : ℚ) (fresh : List UIElement),
      cache_get cache now true fresh = (fresh, ⟨fresh, now, cache.mode⟩, true)) := by
  refine ⟨fun cache now fresh hne => ⟨fun hage => ?_, fun hage => ?_⟩,
    fun cache now fresh => cache_get_forced cache now fresh⟩
  · exact cache_get_hit cache now fresh hage hne
  · exact cache_get_stale cache now fresh hage

lemma age29_le : ¬ ((29 : ℚ) - 0 > 30) := by norm_num

lemma age31_gt : (31 : ℚ) - 0 > 30 := by norm_num

/-- Witness for C6: at age 29 the snapshot is served from the cache, at age
31 a fresh detection replaces it. -/
theorem c6_cache_ttl_witness :
    cache_get ⟨[sampleCancel], 0, "xml"⟩ 29 false [sampleOK] =
      ([sampleCancel], ⟨[sampleCancel], 0, "xml"⟩, false) ∧
    cache_get ⟨[sampleCancel], 0, "xml"⟩ 31 false [sampleOK] =
      ([sampleOK], ⟨[sampleOK], 31, "xml"⟩, true) :=
  ⟨(c6_cache_ttl.1 ⟨[sampleCancel], 0, "xml"⟩ 29 [sampleOK] (List.cons_ne_nil _ _)).1 age29_le,
   (c6_cache_ttl.1 ⟨[sampleCancel], 0, "xml"⟩ 31 [sampleOK] (List.cons_ne_nil _ _)).2 age31_gt⟩

/-- Counterexample to C6 as stated: with an empty stored element list, a read
at age 10 ≤ 30 with no forced refresh still performs a fresh detection
instead of returning the stored snapshot's (empty) elements. -/
theorem c6_cache_ttl_counterexample :
    (10 : ℚ) - 0 ≤ 30 ∧
    cache_get ⟨[], 0, "xml"⟩ 10 false [sampleCancel] =
      ([sampleCancel], ⟨[sampleCancel], 10, "xml"⟩, true) :=
  ⟨by norm_num, by simp [cache_get]⟩

/-! ## C8: the one-shot refresh retry on a missed query -/

/-- C8.  When the query misses and the caller did not force a refresh, the
cache is refreshed exactly once more (`detections` grows by one) and the
same query is retried; a miss after the retry is reported as the
non-exception `not_found` value carrying the count of the now-available
elements.  When the caller had already forced a refresh, no second refresh
happens and the count reported is over the elements of the forced
detection. -/
theorem c8_not_found_retry :
    (∀ (cache : UICache) (now : ℚ) (index? : Option Nat) (text? : Option String)
      (rid? : Option String) (fresh1 fresh2 els1 : List UIElement) (c1 : UICache) (det1 : Bool),
      index?.isSome = true ∨ text?.isSome = true ∨ rid?.isSome = true →
      cache_get cache now false fresh1 = (els1, c1, det1) →
      searchOnce index? text? rid? els1 = none →
      searchOnce index? text? rid? fresh2 = none →
      tap_element cache now index? text? rid? false fresh1 fresh2 =
        ⟨TapOutcome.not_found fresh2.length, ⟨fresh2, now, cache.mode⟩,
          (if det1 then 1 else 0) + 1⟩) ∧
    (∀ (cache : UICache) (now : ℚ) (index? : Option Nat) (text? : Option String)
      (rid? : Option String) (fresh1 fresh2 : List UIElement),
      index?.isSome = true ∨ text?.isSome = true ∨ rid?.isSome = true →
      searchOnce index? text? rid? fresh1 = none →
      tap_element cache now index? text? rid? true fresh1 fresh2 =
        ⟨TapOutcome.not_found fresh1.length, ⟨fresh1, now, cache.mode⟩, 1⟩) := by
  constructor
  · intro cache now index? text? rid? fresh1 fresh2 els1 c1 det1 hkey hget hs1 hs2
    rcases index? with _ | i <;> rcases text? with _ | t <;> rcases rid? with _ | r <;>
      simp_all [tap_element, searchOnce]
  · intro cache now index? text? rid? fresh1 fresh2 hkey hs1
    have hget := cache_get_forced cache now fresh1
    rcases index? with _ | i <;> rcases text? with _ | t <;> rcases rid? with _ | r <;>
      simp_all [tap_element, searchOnce]

/-- Witness for C8: a concrete miss, one retry detection, and a `not_found`
carrying the diagnostic element count 1. -/
theorem c8_not_found_retry_witness :
    tap_element ⟨[sampleCancel], 0, "xml"⟩ 5 none (some ("zzz")) none false [sampleOK] [sampleOK] =
      ⟨TapOutcome.not_found 1, ⟨[sampleOK], 5, "xml"⟩, 1⟩ :=
  c8_not_found_retry.1 ⟨[sampleCancel], 0, "xml"⟩ 5 none (some ("zzz")) none
    [sampleOK] [sampleOK] [sampleCancel] ⟨[sampleCancel], 0, "xml"⟩ false
    (Or.inr (Or.inl rfl)) cache_get_sample_fresh (by decide) (by decide)

/-! ## C9: validation of the targeting keys -/

/-- C9 (amended).  Supplying no targeting key yields the usage-error outcome
(after the cache read, which may itself have performed a detection when the
cache was stale, empty, or a refresh was forced); supplying several keys is
not an error: the keys are consulted in the priority order
index > text > resource_id and the extra keys are ignored. -/
theorem c9_targeting_key_validation :
    (∀ (cache : UICache) (now : ℚ) (refresh : Bool) (fresh1 fresh2 : List UIElement),
      tap_element cache now none none none refresh fresh1 fresh2 =
        ⟨TapOutcome.invalid_query, (cache_get cache now refresh fresh1).2.1,
          if (cache_get cache now refresh fresh1).2.2 then 1 else 0⟩) ∧
    (∀ (cache : UICache) (now : ℚ) (refresh : Bool) (fresh1 fresh2 : List UIElement)
      (i : Nat) (text? : Option String) (rid? : Option String),
      tap_element cache now (some i) text? rid? refresh fresh1 fresh2 =
        tap_element cache now (some i) none none refresh fresh1 fresh2) ∧
    (∀ (cache : UICache) (now : ℚ) (refresh : Bool) (fresh1 fresh2 : List UIElement)
      (t : String) (rid? : Option String),
      tap_element cache now none (some t) rid? refresh fresh1 fresh2 =
        tap_element cache now none (some t) none refresh fresh1 fresh2) :=
  ⟨fun _ _ _ _ _ => rfl, fun _ _ _ _ _ _ _ _ => rfl, fun _ _ _ _ _ _ _ => rfl⟩

/-- Counterexample to C9 as stated: supplying two targeting keys (`index`
and `text`) is not surfaced as a usage error — the call taps by index and
ignores the text — and the forced-refresh path performed a device
detection even before the key check. -/
theorem c9_targeting_key_validation_counterexample :
    (tap_element ⟨[], 0, "xml"⟩ 0 (some 0) (some ("zzz")) none true [sampleCancel] []).outcome
        = TapOutcome.tapped sampleCancel 50 25 ∧
    (tap_element ⟨[], 0, "xml"⟩ 0 (some 0) (some ("zzz")) none true [sampleCancel] []).outcome
        ≠ TapOutcome.invalid_query ∧
    (tap_element ⟨[], 0, "xml"⟩ 0 (some 0) (some ("zzz")) none true [sampleCancel] []).detections = 1 :=
  ⟨by decide, by decide, by decide⟩

/-! ## C3: mode selection policy -/

/-- C3.  Mode `"xml"` (the spec's `tree`) runs only the hierarchy pipeline
and propagates its result; `"ocr"` (the spec's `optical`) runs only the OCR
pipeline; `"auto"` runs the hierarchy pipeline first and returns the optical
result instead exactly when the hierarchy attempt failed or produced fewer
elements than the usefulness threshold. -/
theorem c3_mode_selection :
    (∀ (threshold : Nat) (tree_attempt ocr_attempt : Except String (List UIElement)),
      get_ui_elements_dispatch ("xml") threshold tree_attempt ocr_attempt = tree_attempt) ∧
    (∀ (threshold : Nat) (tree_attempt ocr_attempt : Except String (List UIElement)),
      get_ui_elements_dispatch ("ocr") threshold tree_attempt ocr_attempt = ocr_attempt) ∧
    (∀ (threshold : Nat) (err : String) (ocr_attempt : Except String (List UIElement)),
      get_ui_elements_dispatch ("auto") threshold (Except.error err) ocr_attempt = ocr_attempt) ∧
    (∀ (threshold : Nat) (es : List UIElement) (ocr_attempt : Except String (List UIElement)),
      es.length < threshold →
      get_ui_elements_dispatch ("auto") threshold (Except.ok es) ocr_attempt = ocr_attempt) ∧
    (∀ (threshold : Nat) (es : List UIElement) (ocr_attempt : Except String (List UIElement)),
      threshold ≤ es.length →
      get_ui_elements_dispatch ("auto") threshold (Except.ok es) ocr_attempt = Except.ok es) := by
  refine ⟨fun _ _ _ => rfl, fun _ _ _ => rfl, fun _ _ _ => rfl, ?_, ?_⟩
  · intro threshold es ocr_attempt h
    simp [get_ui_elements_dispatch, h]
  · intro threshold es ocr_attempt h
    simp [get_ui_elements_dispatch, Nat.not_lt.mpr h]

/-- Witness for C3: a useless (empty) hierarchy result falls back to the
optical result under threshold 1; a result meeting the threshold is kept. -/
theorem c3_mode_selection_witness :
    get_ui_elements_dispatch ("auto") 1 (Except.ok []) (Except.ok [sampleOptical]) =
      Except.ok [sampleOptical] ∧
    get_ui_elements_dispatch ("auto") 1 (Except.ok [sampleSubmitParsed]) (Except.ok [sampleOptical]) =
      Except.ok [sampleSubmitParsed] :=
  ⟨c3_mode_selection.2.2.2.1 1 [] (Except.ok [sampleOptical]) (by decide),
   c3_mode_selection.2.2.2.2 1 [sampleSubmitParsed] (Except.ok [sampleOptical]) (by decide)⟩

/-! ## C4: the optical detector's output -/

/-- The claim's per-region filter: confidence at least 0.5, text containing
a non-whitespace character, a recorded polygon, and a non-degenerate
min/max-reduced rectangle. -/
def opticalKeep (rec_scores : List ℚ) (dt_polys : List Quad) (i : Nat) (text : String) : Bool :=
  decide (mkRat 1 2 ≤ rec_scores.getD i 0) && !(pyStripStr text == "") &&
    decide (i < dt_polys.length) &&
    (let rect := quadRect (dt_polys.getD i ((0, 0), (0, 0), (0, 0), (0, 0)))
     decide (rect.1 < rect.2.2.1) && decide (rect.2.1 < rect.2.2.2))

/-- The element the claim promises for the k-th surviving region. -/
def mkOptical (k : Nat) (text : String) (rect : Int × Int × Int × Int) : UIElement :=
  { index := k, text := text, content_desc := "", resource_id := "",
    class_name := "ocr_text", bounds := rect, clickable := true, enabled := true,
    focused := false, selected := false }

/-- The output promised by the claim: exactly the surviving regions, in
detection order, with sequential indices. -/
def opticalSpec (rec_texts : List String) (rec_scores : List ℚ)
    (dt_polys : List Quad) : List UIElement :=
  (((rec_texts.enum).filter fun p => opticalKeep rec_scores dt_polys p.1 p.2).enum).map
    fun q => mkOptical q.1 (pyStripStr q.2.2)
      (quadRect (dt_polys.getD q.2.1 ((0, 0), (0, 0), (0, 0), (0, 0))))

lemma ocrLoop_spec (rec_scores : List ℚ) (dt_polys : List Quad) :
    ∀ (texts : List String) (i index : Nat),
      ocrLoop rec_scores dt_polys i index texts =
        (((texts.enumFrom i).filter fun p =>
            opticalKeep rec_scores dt_polys p.1 p.2).enumFrom index).map
          fun q => mkOptical q.1 (pyStripStr q.2.2)
            (quadRect (dt_polys.getD q.2.1 ((0, 0), (0, 0), (0, 0), (0, 0)))) := by
  intro texts
  induction texts with
  | nil => intro i index; rfl
  | cons text rest ih =>
    intro i index
    rw [ocrLoop]
    by_cases h1 : rec_scores.getD i 0 < mkRat 1 2
    · have hc : decide (mkRat 1 2 ≤ rec_scores.getD i 0) = false :=
        decide_eq_false (not_le.mpr h1)
      have hk : opticalKeep rec_scores dt_polys i text = false := by
        simp only [opticalKeep, hc, Bool.false_and]
      rw [if_pos h1, ih]
      simp [List.enumFrom_cons, List.filter_cons, hk]
    · rw [if_neg h1]
      by_cases h2 : (text == "" || pyStripStr text == "") = true
      · have hstrip : (pyStripStr text == "") = true := by
          rcases Bool.or_eq_true_iff.mp h2 with h | h
          · have : text = "" := by simpa using h
            subst this; rfl
          · exact h
        have hk : opticalKeep rec_scores dt_polys i text = false := by
          simp only [opticalKeep, hstrip, Bool.not_true, Bool.and_false, Bool.false_and]
        rw [if_pos h2, ih]
        simp [List.enumFrom_cons, List.filter_cons, hk]
      · rw [if_neg h2]
        by_cases h3 : dt_polys.length ≤ i
        · have hc : decide (i < dt_polys.length) = false :=
            decide_eq_false (Nat.not_lt.mpr h3)
          have hk : opticalKeep rec_scores dt_polys i text = false := by
            simp only [opticalKeep, hc, Bool.and_false, Bool.false_and]
          rw [if_pos h3, ih]
          simp [List.enumFrom_cons, List.filter_cons, hk]
        · rw [if_neg h3]
          by_cases h4 :
              (quadRect (dt_polys.getD i ((0, 0), (0, 0), (0, 0), (0, 0)))).2.2.1 ≤
                  (quadRect (dt_polys.getD i ((0, 0), (0, 0), (0, 0), (0, 0)))).1 ∨
                (quadRect (dt_polys.getD i ((0, 0), (0, 0), (0, 0), (0, 0)))).2.2.2 ≤
                  (quadRect (dt_polys.getD i ((0, 0), (0, 0), (0, 0), (0, 0)))).2.1
          · have hk : opticalKeep rec_scores dt_polys i text = false := by
              rcases h4 with h | h
              · have hc := decide_eq_false (not_lt.mpr h)
                simp only [opticalKeep, hc, Bool.false_and, Bool.and_false]
              · have hc := decide_eq_false (not_lt.mpr h)
                simp only [opticalKeep, hc, Bool.false_and, Bool.and_false]
            rw [if_pos h4, ih]
            simp [List.enumFrom_cons, List.filter_cons, hk]
          · have hk : opticalKeep rec_scores dt_polys i text = true := by
              push_neg at h4
              have c1 : decide (mkRat 1 2 ≤ rec_scores.getD i 0) = true :=
                decide_eq_true (not_lt.mp h1)
              have c2 : (pyStripStr text == "") = false := by
                cases hb : (pyStripStr text == "") with
                | false => rfl
                | true => exact absurd (by rw [hb]; simp) h2
              have c3 : decide (i < dt_polys.length) = true :=
                decide_eq_true (Nat.not_le.mp h3)
              have c4a := decide_eq_true h4.1
              have c4b := decide_eq_true h4.2
              simp only [opticalKeep, c1, c2, c3, c4a, c4b, Bool.not_false,
                Bool.and_true, Bool.true_and, Bool.and_self]
            rw [if_neg h4, ih]
            simp only [List.enumFrom_cons, List.filter_cons, hk, if_true, List.map_cons]
            rfl

/-- C4 (amended).  The optical detector outputs exactly the regions with
confidence ≥ 0.5, non-whitespace text, and a non-degenerate min/max-reduced
rectangle; every produced element has `clickable = enabled = true`,
`focused = selected = false`, empty `resource_id`, class tag `"ocr_text"`,
and the indices are sequential in detection order. -/
theorem c4_optical_elements :
    (∀ (rec_texts : List String) (rec_scores : List ℚ) (dt_polys : List Quad),
      ocr_get_ui_elements rec_texts rec_scores dt_polys =
        opticalSpec rec_texts rec_scores dt_polys) ∧
    (∀ (rec_texts : List String) (rec_scores : List ℚ) (dt_polys : List Quad)
      (e : UIElement), e ∈ ocr_get_ui_elements rec_texts rec_scores dt_polys →
      e.clickable = true ∧ e.enabled = true ∧ e.focused = false ∧ e.selected = false ∧
        e.resource_id = "" ∧ e.class_name = "ocr_text") ∧
    (∀ (rec_texts : List String) (rec_scores : List ℚ) (dt_polys : List Quad),
      (ocr_get_ui_elements rec_texts rec_scores dt_polys).map UIElement.index =
        List.range (ocr_get_ui_elements rec_texts rec_scores dt_polys).length) := by
  have hmain : ∀ (rec_texts : List String) (rec_scores : List ℚ) (dt_polys : List Quad),
      ocr_get_ui_elements rec_texts rec_scores dt_polys =
        opticalSpec rec_texts rec_scores dt_polys :=
    fun rec_texts rec_scores dt_polys => ocrLoop_spec rec_scores dt_polys rec_texts 0 0
  refine ⟨hmain, ?_, ?_⟩
  · intro rec_texts rec_scores dt_polys e he
    rw [hmain] at he
    simp only [opticalSpec, List.mem_map] at he
    obtain ⟨q, _, rfl⟩ := he
    simp [mkOptical]
  · intro rec_texts rec_scores dt_polys
    rw [hmain]
    simp only [opticalSpec, List.map_map, List.length_map]
    have hfst : (UIElement.index ∘ fun q : Nat × Nat × String =>
        mkOptical q.1 (pyStripStr q.2.2)
          (quadRect (dt_polys.getD q.2.1 ((0, 0), (0, 0), (0, 0), (0, 0))))) = Prod.fst := by
      funext q; rfl
    rw [hfst, List.enum_map_fst, List.enum_length]

/-- Witness for C4: the concrete fields of a concrete optical element. -/
theorem c4_optical_elements_witness :
    sampleOptical ∈ ocr_get_ui_elements ["OK"] [mkRat 9 10] [((0, 0), (10, 0), (10, 10), (0, 10))] ∧
    (sampleOptical.clickable = true ∧ sampleOptical.enabled = true ∧
      sampleOptical.focused = false ∧ sampleOptical.selected = false ∧
      sampleOptical.resource_id = "" ∧ sampleOptical.class_name = "ocr_text") :=
  ⟨by decide,
   c4_optical_elements.2.1 ["OK"] [mkRat 9 10] [((0, 0), (10, 0), (10, 10), (0, 10))]
     sampleOptical (by decide)⟩

/-- Counterexample to C4 as stated: the class tag of an optical element is
the literal `"ocr_text"`, not `"optical_text"`. -/
theorem c4_optical_elements_counterexample :
    (ocr_get_ui_elements ["OK"] [mkRat 9 10] [((0, 0), (10, 0), (10, 10), (0, 10))]).map
        UIElement.class_name = ["ocr_text"] ∧
    ("ocr_text" : String) ≠ "optical_text" :=
  ⟨by decide, by decide⟩

/-! ## C2: bounds-string parsing.  Digit and literal lemmas first. -/

lemma isDigit_digitChar {d : Nat} (h : d < 10) : (digitChar d).isDigit = true := by
  interval_cases d <;> decide

lemma digitVal_digitChar {d : Nat} (h : d < 10) : digitVal (digitChar d) = d := by
  interval_cases d <;> decide

lemma ne_of_isDigit {c : Char} (h : c.isDigit = true) {d : Char}
    (hd : d.isDigit = false) : c ≠ d := by
  intro he
  rw [he, hd] at h
  exact Bool.false_ne_true h

lemma not_ws_of_isDigit {c : Char} (h : c.isDigit = true) : c.isWhitespace = false := by
  cases hw : c.isWhitespace with
  | false => rfl
  | true =>
    exfalso
    simp only [Char.isWhitespace, Bool.or_eq_true, decide_eq_true_eq] at hw
    rcases hw with ((h1 | h1) | h1) | h1 <;> subst h1 <;> exact absurd h (by decide)

lemma natDigitsAux_digits : ∀ (fuel n : Nat), ∀ c ∈ natDigitsAux fuel n, c.isDigit = true := by
  intro fuel
  induction fuel with
  | zero => intro n c hc; simp [natDigitsAux] at hc
  | succ fuel ih =>
    intro n c hc
    rw [natDigitsAux] at hc
    by_cases hn : n = 0
    · rw [if_pos hn] at hc; simp at hc
    · rw [if_neg hn] at hc
      rcases List.mem_append.mp hc with h | h
      · exact ih (n / 10) c h
      · rw [List.mem_singleton.mp h]
        exact isDigit_digitChar (Nat.mod_lt n (by norm_num))

lemma natDigits_digits (n : Nat) : ∀ c ∈ natDigits n, c.isDigit = true := by
  intro c hc
  rw [natDigits] at hc
  by_cases hn : n = 0
  · rw [if_pos hn] at hc
    rw [List.mem_singleton.mp hc]; decide
  · rw [if_neg hn] at hc
    exact natDigitsAux_digits (n + 1) n c hc

lemma natDigits_ne_nil (n : Nat) : natDigits n ≠ [] := by
  rw [natDigits]
  by_cases hn : n = 0
  · rw [if_pos hn]; simp
  · rw [if_neg hn, natDigitsAux, if_neg hn]
    simp

lemma digitsCore_cons_digit {c : Char} (h : c.isDigit = true) (acc : Nat) (l : List Char) :
    digitsCore acc (c :: l) = digitsCore (acc * 10 + digitVal c) l := by
  conv_lhs => rw [digitsCore.eq_def]
  simp [h]

lemma digitsCore_natDigitsAux :
    ∀ (fuel n : Nat), n < fuel → ∀ (acc : Nat) (rest : List Char),
      digitsCore acc (natDigitsAux fuel n ++ rest) =
        digitsCore (acc * 10 ^ (natDigitsAux fuel n).length + n) rest := by
  intro fuel
  induction fuel with
  | zero => intro n h; exact absurd h (Nat.not_lt_zero n)
  | succ fuel ih =>
    intro n hn acc rest
    by_cases h0 : n = 0
    · subst h0
      simp [natDigitsAux]
    · have hdiv : n / 10 < fuel :=
        lt_of_lt_of_le (Nat.div_lt_self (Nat.pos_of_ne_zero h0) (by norm_num))
          (Nat.lt_succ_iff.mp hn)
      rw [natDigitsAux, if_neg h0]
      rw [List.append_assoc, ih (n / 10) hdiv acc ([digitChar (n % 10)] ++ rest),
        List.singleton_append,
        digitsCore_cons_digit (isDigit_digitChar (Nat.mod_lt n (by norm_num))),
        digitVal_digitChar (Nat.mod_lt n (by norm_num))]
      have hacc : (acc * 10 ^ (natDigitsAux fuel (n / 10)).length + n / 10) * 10 + n % 10 =
          acc * 10 ^ (natDigitsAux fuel (n / 10)).length.succ + n := by
        have hdm : n / 10 * 10 + n % 10 = n := by omega
        rw [pow_succ, add_mul, add_assoc, hdm, mul_assoc]
      rw [hacc]
      congr 1
      simp [Nat.succ_eq_add_one]

lemma pyIntDigits_natDigits (n : Nat) : pyIntDigits (natDigits n) = some n := by
  by_cases hn : n = 0
  · subst hn; decide
  · have hlt : n < n + 1 := Nat.lt_succ_self n
    have hmain := digitsCore_natDigitsAux (n + 1) n hlt 0 []
    rw [List.append_nil] at hmain
    have hN : natDigits n = natDigitsAux (n + 1) n := by rw [natDigits, if_neg hn]
    cases hcons : natDigits n with
    | nil => exact absurd hcons (natDigits_ne_nil n)
    | cons c cs =>
      have hd : c.isDigit = true :=
        natDigits_digits n c (by rw [hcons]; exact List.mem_cons_self c cs)
      rw [pyIntDigits, if_pos hd]
      have hzero : digitsCore 0 (c :: cs) = digitsCore (digitVal c) cs := by
        rw [digitsCore_cons_digit hd]
        norm_num
      rw [← hzero, ← hcons, hN, hmain]
      norm_num
      rfl

/-- All characters of an integer literal are digits or the leading minus. -/
lemma intLit_chars (a : Int) : ∀ c ∈ intLit a, c.isDigit = true ∨ c = '-' := by
  intro c hc
  rw [intLit] at hc
  by_cases ha : a < 0
  · rw [if_pos ha] at hc
    rcases List.mem_cons.mp hc with h | h
    · exact Or.inr h
    · exact Or.inl (natDigits_digits _ c h)
  · rw [if_neg ha] at hc
    exact Or.inl (natDigits_digits _ c hc)

lemma intLit_ne_nil (a : Int) : intLit a ≠ [] := by
  rw [intLit]
  by_cases ha : a < 0
  · rw [if_pos ha]; simp
  · rw [if_neg ha]; exact natDigits_ne_nil _

lemma dropWhile_eq_self_of_none {p : Char → Bool} {l : List Char}
    (h : ∀ c ∈ l, p c = false) : l.dropWhile p = l := by
  cases l with
  | nil => rfl
  | cons c cs => simp [List.dropWhile_cons, h c (List.mem_cons_self c cs)]

lemma stripWs_eq_self {l : List Char} (h : ∀ c ∈ l, c.isWhitespace = false) :
    stripWs l = l := by
  rw [stripWs, dropWhile_eq_self_of_none h, dropWhile_eq_self_of_none (by
    intro c hc
    exact h c (List.mem_reverse.mp hc)), List.reverse_reverse]

lemma stripWs_intLit (a : Int) : stripWs (intLit a) = intLit a := by
  apply stripWs_eq_self
  intro c hc
  rcases intLit_chars a c hc with h | h
  · exact not_ws_of_isDigit h
  · subst h; decide

/-- `int(str(a))` round-trips. -/
lemma pyInt_intLit (a : Int) : pyInt (intLit a) = some a := by
  rw [pyInt, stripWs_intLit]
  by_cases ha : a < 0
  · have hL : intLit a = '-' :: natDigits a.natAbs := by rw [intLit, if_pos ha]
    rw [hL]
    simp [pyIntDigits_natDigits]
    rw [abs_of_neg ha, neg_neg]
  · have hL : intLit a = natDigits a.toNat := by rw [intLit, if_neg ha]
    rw [hL]
    cases hcons : natDigits a.toNat with
    | nil => exact absurd hcons (natDigits_ne_nil _)
    | cons c cs =>
      have hd : c.isDigit = true :=
        natDigits_digits _ c (by rw [hcons]; exact List.mem_cons_self c cs)
      have hc1 : ¬ c = '-' := ne_of_isDigit hd (by decide)
      have hc2 : ¬ c = '+' := ne_of_isDigit hd (by decide)
      simp [hc1, hc2, ← hcons, pyIntDigits_natDigits]
      omega

/-! String-operation lemmas for the `[a,b][c,d]` round trip. -/

lemma replaceBrPair_cons_ne {c : Char} (hc : c ≠ ']') (l : List Char) :
    replaceBrPair (c :: l) = c :: replaceBrPair l := by
  cases l with
  | nil => rfl
  | cons c2 l2 =>
    show (if c = ']' ∧ c2 = '[' then ',' :: replaceBrPair l2
      else c :: replaceBrPair (c2 :: l2)) = c :: replaceBrPair (c2 :: l2)
    rw [if_neg (fun h => hc h.1)]

lemma replaceBrPair_append {xs : List Char} (h : ∀ c ∈ xs, c ≠ ']') (ys : List Char) :
    replaceBrPair (xs ++ ys) = xs ++ replaceBrPair ys := by
  induction xs with
  | nil => rfl
  | cons c xs' ih =>
    rw [List.cons_append, replaceBrPair_cons_ne (h c (List.mem_cons_self c xs')),
      ih (fun c' hc' => h c' (List.mem_cons_of_mem c hc')), List.cons_append]

lemma replaceBrPair_junction (l : List Char) :
    replaceBrPair (']' :: '[' :: l) = ',' :: replaceBrPair l := by
  show (if ']' = ']' ∧ '[' = '[' then ',' :: replaceBrPair l
    else ']' :: replaceBrPair ('[' :: l)) = ',' :: replaceBrPair l
  rw [if_pos ⟨rfl, rfl⟩]

lemma stripBrackets_wrap (M : List Char) (h : ∀ c ∈ M, isBracket c = false) :
    stripBrackets ('[' :: (M ++ [']'])) = M := by
  cases M with
  | nil => decide
  | cons m ms =>
    have hm : isBracket m = false := h m (List.mem_cons_self m ms)
    rw [stripBrackets, List.dropWhile_cons]
    simp only [show isBracket '[' = true from rfl, if_true]
    rw [List.cons_append, List.dropWhile_cons, hm]
    simp only [Bool.false_eq_true, if_false]
    rw [show m :: (ms ++ [']']) = (m :: ms) ++ [']'] from rfl, List.reverse_append]
    rw [show ([']'] : List Char).reverse = [']'] from rfl, List.singleton_append]
    rw [List.dropWhile_cons]
    simp only [show isBracket ']' = true from rfl, if_true]
    cases hrev : (m :: ms).reverse with
    | nil => exact absurd hrev (by simp)
    | cons r rs =>
      have hr : isBracket r = false := by
        apply h
        have hmem : r ∈ (m :: ms).reverse := by
          rw [hrev]; exact List.mem_cons_self r rs
        exact List.mem_reverse.mp hmem
      rw [List.dropWhile_cons, hr]
      simp only [Bool.false_eq_true, if_false]
      rw [← hrev, List.reverse_reverse]

lemma splitComma_append {xs : List Char} (h : ∀ c ∈ xs, c ≠ ',') (ys : List Char) :
    splitComma (xs ++ ',' :: ys) = xs :: splitComma ys := by
  induction xs with
  | nil => rw [List.nil_append, splitComma, if_pos rfl]
  | cons c xs' ih =>
    rw [List.cons_append, splitComma, if_neg (h c (List.mem_cons_self c xs')),
      ih (fun c' hc' => h c' (List.mem_cons_of_mem c hc'))]

lemma splitComma_single {xs : List Char} (h : ∀ c ∈ xs, c ≠ ',') : splitComma xs = [xs] := by
  induction xs with
  | nil => rfl
  | cons c xs' ih =>
    rw [splitComma, if_neg (h c (List.mem_cons_self c xs')),
      ih (fun c' hc' => h c' (List.mem_cons_of_mem c hc'))]

lemma intLit_not_rb (a : Int) : ∀ c ∈ intLit a, c ≠ ']' := by
  intro c hc
  rcases intLit_chars a c hc with h | h
  · exact ne_of_isDigit h (by decide)
  · subst h; decide

lemma intLit_not_comma (a : Int) : ∀ c ∈ intLit a, c ≠ ',' := by
  intro c hc
  rcases intLit_chars a c hc with h | h
  · exact ne_of_isDigit h (by decide)
  · subst h; decide

lemma intLit_not_bracket (a : Int) : ∀ c ∈ intLit a, isBracket c = false := by
  intro c hc
  rcases intLit_chars a c hc with h | h
  · have h1 : ¬ c = '[' := ne_of_isDigit h (by decide)
    have h2 : ¬ c = ']' := ne_of_isDigit h (by decide)
    simp [isBracket, h1, h2]
  · subst h; decide

lemma parse_bounds_roundtrip (a b c d : Int) :
    _parse_bounds (boundsLit a b c d) = (a, b, c, d) := by
  have htl : (boundsLit a b c d).toList =
      '[' :: (intLit a ++ ',' ::
        (intLit b ++ ']' :: '[' :: (intLit c ++ ',' :: (intLit d ++ [']'])))) := rfl
  have hreplace : replaceBrPair (boundsLit a b c d).toList =
      '[' :: (intLit a ++ ',' :: (intLit b ++ ',' :: (intLit c ++ ',' :: (intLit d ++ [']'])))) := by
    rw [htl, replaceBrPair_cons_ne (by decide), replaceBrPair_append (intLit_not_rb a),
      replaceBrPair_cons_ne (by decide), replaceBrPair_append (intLit_not_rb b),
      replaceBrPair_junction, replaceBrPair_append (intLit_not_rb c),
      replaceBrPair_cons_ne (by decide), replaceBrPair_append (intLit_not_rb d)]
    rfl
  have hassoc : '[' :: (intLit a ++ ',' ::
        (intLit b ++ ',' :: (intLit c ++ ',' :: (intLit d ++ [']'])))) =
      '[' :: ((intLit a ++ ',' :: (intLit b ++ ',' :: (intLit c ++ ',' :: intLit d))) ++ [']']) := by
    simp [List.append_assoc]
  have hmem : ∀ c' ∈ intLit a ++ ',' :: (intLit b ++ ',' :: (intLit c ++ ',' :: intLit d)),
      isBracket c' = false := by
    intro c' hc'
    simp only [List.mem_append, List.mem_cons] at hc'
    rcases hc' with h | h | h | h | h | h | h
    · exact intLit_not_bracket a c' h
    · subst h; decide
    · exact intLit_not_bracket b c' h
    · subst h; decide
    · exact intLit_not_bracket c c' h
    · subst h; decide
    · exact intLit_not_bracket d c' h
  have hstrip : stripBrackets (replaceBrPair (boundsLit a b c d).toList) =
      intLit a ++ ',' :: (intLit b ++ ',' :: (intLit c ++ ',' :: intLit d)) := by
    rw [hreplace, hassoc, stripBrackets_wrap _ hmem]
  have hsplit : splitComma (stripBrackets (replaceBrPair (boundsLit a b c d).toList)) =
      [intLit a, intLit b, intLit c, intLit d] := by
    rw [hstrip, splitComma_append (intLit_not_comma a), splitComma_append (intLit_not_comma b),
      splitComma_append (intLit_not_comma c), splitComma_single (intLit_not_comma d)]
  simp only [_parse_bounds, hsplit, pyInt_intLit]

/-- C2 (amended).  Every string of the exact literal form `[a,b][c,d]`
parses to the rectangle `(a,b,c,d)` (and `_parse_bounds` is total: no input
raises); a string whose bracket-normalised form — `][` replaced by `,`,
surrounding brackets stripped — does not split into exactly four fields, or
splits into four fields of which one is not accepted by `int()`, yields the
zero rectangle `(0,0,0,0)`.  (A malformed string whose normalised form does
split into four integer fields, e.g. `"1,2,3,4"`, still yields those
integers — the counterexample to the claim as stated.) -/
theorem c2_parse_bounds :
    (∀ a b c d : Int, _parse_bounds (boundsLit a b c d) = (a, b, c, d)) ∧
    (∀ s : String,
      (splitComma (stripBrackets (replaceBrPair s.toList))).length ≠ 4 →
      _parse_bounds s = (0, 0, 0, 0)) ∧
    (∀ (s : String) (p0 p1 p2 p3 : List Char),
      splitComma (stripBrackets (replaceBrPair s.toList)) = [p0, p1, p2, p3] →
      pyInt p0 = none ∨ pyInt p1 = none ∨ pyInt p2 = none ∨ pyInt p3 = none →
      _parse_bounds s = (0, 0, 0, 0)) := by
  refine ⟨parse_bounds_roundtrip, ?_, ?_⟩
  · intro s h
    simp only [_parse_bounds]
    rcases hp : splitComma (stripBrackets (replaceBrPair s.toList)) with _ | ⟨p0, _ | ⟨p1, _ | ⟨p2, _ | ⟨p3, _ | ⟨p4, ps⟩⟩⟩⟩⟩ <;>
      rw [hp] at h <;> simp at h ⊢
  · intro s p0 p1 p2 p3 hp hnone
    simp only [_parse_bounds, hp]
    rcases h0 : pyInt p0 with _ | a <;> rcases h1 : pyInt p1 with _ | b <;>
      rcases h2 : pyInt p2 with _ | c <;> rcases h3 : pyInt p3 with _ | d <;>
      simp_all

/-- Witness for C2: the round trip at `(1,2,3,4)`, the zero rectangle on an
input that does not normalise to four fields, and the zero rectangle on an
input with four fields of which one is not an integer. -/
theorem c2_parse_bounds_witness :
    _parse_bounds ("[1,2][3,4]") = (1, 2, 3, 4) ∧
    _parse_bounds ("garbage") = (0, 0, 0, 0) ∧
    _parse_bounds ("[1,2][3,x]") = (0, 0, 0, 0) := by
  refine ⟨?_, ?_, ?_⟩
  · have h := c2_parse_bounds.1 1 2 3 4
    have hb : boundsLit 1 2 3 4 = "[1,2][3,4]" := by decide
    rw [hb] at h
    exact h
  · exact c2_parse_bounds.2.1 ("garbage") (by decide)
  · exact c2_parse_bounds.2.2 ("[1,2][3,x]") ['1'] ['2'] ['3'] ['x'] (by decide)
      (Or.inr (Or.inr (Or.inr (by decide))))

/-- Counterexample to C2 as stated: `"1,2,3,4"` is not of the form
`[a,b][c,d]` (it does not even start with `[`), yet parsing returns
`(1,2,3,4)`, not the zero rectangle. -/
theorem c2_parse_bounds_counterexample :
    _parse_bounds ("1,2,3,4") = (1, 2, 3, 4) ∧
    ((1, 2, 3, 4) : Int × Int × Int × Int) ≠ (0, 0, 0, 0) ∧
    (∀ a b c d : Int, "1,2,3,4" ≠ boundsLit a b c d) := by
  refine ⟨by decide, by decide, ?_⟩
  intro a b c d h
  have h2 := congrArg String.toList h
  have h3 : ("1,2,3,4" : String).toList = ['1', ',', '2', ',', '3', ',', '4'] := rfl
  rw [h3] at h2
  simp only [boundsLit] at h2
  exact absurd (List.head_eq_of_cons_eq h2) (by decide)

end PhoneMcp
